import Mathlib

/-!
# Verification of the loan-dashboard column-resolution and aggregation pipeline

Shallow embedding of the core logic of `streamlit_loan_dashboard.py`:
column-name normalization and resolution (`normalize`, `find_column`),
the schema-mapping loop (`buildFound`, `renameMapOf`), period-key
derivation (`toPeriodStr`), the sidebar filter loop (`applyFilters`),
chronological sorting of monthly tables (`sortMonthDf`), the recovery-rate
and month-over-month percent-change computations (`momCell`,
`pctChangeSeries`, `monthlyRecoveryPct`), DPD bucketing (`dpd_bucket`),
and the per-segment overdue percentage (`pct_overdue`).

Machine floats appearing in the source are modelled as exact rationals,
with the IEEE special values that the claims are about (`nan`, `inf`,
`-inf`) represented explicitly by the `PF` type; division by zero follows
IEEE semantics as pandas/numpy produce them.
-/

namespace LoanDashboard

/-! ## NameResolver: `normalize` and `find_column` (source lines 10-26) -/

/-- `normalize(col_name)`: lowercase, remove non-alphanumeric characters
(`re.sub(r'[^a-z0-9]', '', str(col_name).lower())`). -/
def normalize (s : String) : String :=
  ((s.data.map Char.toLower).filter
    (fun c => decide (('a' ≤ c ∧ c ≤ 'z') ∨ ('0' ≤ c ∧ c ≤ '9')))).asString

/-- Python `needle in hay` for strings: contiguous-substring test, on the
character lists. -/
def infixCheck (needle : List Char) : List Char → Bool
  | [] => needle.isEmpty
  | c :: rest => needle.isPrefixOf (c :: rest) || infixCheck needle rest

/-- String form of `infixCheck`: `a` occurs contiguously inside `b`. -/
def containsSub (a b : String) : Bool := infixCheck a.data b.data

/-- Python `dict` insertion: overwrite the value in place when the key is
already present, otherwise append at the end. -/
def pyDictInsert (m : List (String × String)) (k v : String) :
    List (String × String) :=
  match m with
  | [] => [(k, v)]
  | (k', v') :: rest =>
    if k' = k then (k', v) :: rest else (k', v') :: pyDictInsert rest k v

/-- `norm_to_col = {normalize(c): c for c in df.columns}` — built left to
right with Python dict overwrite semantics. -/
def buildNormMap (cols : List String) : List (String × String) :=
  cols.foldl (fun m c => pyDictInsert m (normalize c) c) []

/-- First loop of `find_column`: for each candidate in order, exact lookup
of its normalized form in `norm_to_col`. -/
def exactPass (cols candidates : List String) : Option String :=
  candidates.findSome? (fun cand => (buildNormMap cols).lookup (normalize cand))

/-- Second loop of `find_column`: for each `(nc, col)` entry of
`norm_to_col` in order, return `col` as soon as some candidate's normal
form contains or is contained in `nc`. -/
def subPass (cols candidates : List String) : Option String :=
  (buildNormMap cols).findSome? (fun p =>
    if candidates.any (fun cand =>
        containsSub (normalize cand) p.1 || containsSub p.1 (normalize cand))
    then some p.2 else none)

/-- `find_column(df, candidates)` (source lines 14-26): exact pass first,
substring pass only if no exact match, `None` otherwise. -/
def find_column (cols candidates : List String) : Option String :=
  match exactPass cols candidates with
  | some col => some col
  | none => subPass cols candidates

/-! ## SchemaMapper: the `found` / `rename_map` loops (source lines 44-68) -/

/-- The `col_candidates` table, verbatim from source lines 44-56, in
declaration order. -/
def colCandidates : List (String × List String) :=
  [ ("loan_date", ["actual_date_of_loan", "actual date of loan", "disbursal_date", "loan_date", "date"])
  , ("sum_disbursed", ["sum_loan_amount_disbursed", "sumloanamountdisbursed", "sum_loan_amount", "loan_amount", "sumdisbursed"])
  , ("sum_setup_fee", ["sum_set_up_fee", "sum_set_up_fees", "sumsetupfee", "setup_fee", "sum set up fee"])
  , ("sum_recovered", ["sum_total_recovered", "sum_total_recovered", "sumtotalrecovered", "total_recovered", "sum_recovered"])
  , ("outstanding", ["outstanding_principle", "outstanding_principal", "outstandingprinciple"])
  , ("days_past_due", ["days_past_due_date", "dayspastduedate", "days_past_due", "dpd_days", "dayspastdue"])
  , ("dpd_cat", ["dpd", "dpd_status"])
  , ("segment", ["segment", "customer_segment"])
  , ("gender", ["gender", "sex"])
  , ("loan_status", ["loan_status", "status"])
  , ("account_state", ["account_state_name", "account_state"]) ]

/-- The `found` dict (source lines 58-62): for each canonical field in
declaration order, `find_column` against the full column list; keep the
pair when a column is found.  Note each field is resolved against *all*
columns, not against the columns left unclaimed by earlier fields. -/
def buildFound (cols : List String) : List (String × String) :=
  colCandidates.filterMap (fun kc =>
    (find_column cols kc.2).map (fun c => (kc.1, c)))

/-- The `rename_map` dict (source lines 65-67): keyed by the raw column,
so when two canonical fields found the same raw column the later field
overwrites the earlier one. -/
def renameMapOf (cols : List String) : List (String × String) :=
  (buildFound cols).foldl (fun m p => pyDictInsert m p.2 p.1) []

/-- Claim C6 (counterexample): on a dataset whose columns are
`["actual_date_of_loan", "dpd"]`, the raw column `"dpd"` is claimed by
*both* `days_past_due` (via the substring pass, `"dpd" ⊆ "dpddays"`) and
`dpd_cat` (via an exact match), so the produced field mapping is not
injective, contrary to the claim. -/
theorem C6_schema_map_not_injective :
    (buildFound ["actual_date_of_loan", "dpd"]).lookup "days_past_due" = some "dpd"
    ∧ (buildFound ["actual_date_of_loan", "dpd"]).lookup "dpd_cat" = some "dpd"
    ∧ "days_past_due" ≠ "dpd_cat" := by
  refine ⟨by decide, by decide, by decide⟩

/-- Claim C6 (amended): every assignment produced by the `found` loop comes
from resolving that field's candidates against the *full* column list (no
label is reserved by earlier fields), which is why collisions are possible;
and in the `rename_map`, a collided raw column is mapped to the *last*
canonical field that claimed it (`"dpd"` ends up renamed to `dpd_cat`, not
`days_past_due`). -/
theorem C6_schema_map_full_resolution (cols : List String) (k c : String)
    (h : (k, c) ∈ buildFound cols) :
    (∃ cands, (k, cands) ∈ colCandidates ∧ find_column cols cands = some c)
    ∧ (renameMapOf ["actual_date_of_loan", "dpd"]).lookup "dpd" = some "dpd_cat" := by
  constructor
  · rw [buildFound, List.mem_filterMap] at h
    obtain ⟨⟨k0, cands0⟩, hkc, hf⟩ := h
    rw [Option.map_eq_some'] at hf
    obtain ⟨c', hc', heq⟩ := hf
    injection heq with h1 h2
    subst h1; subst h2
    exact ⟨cands0, hkc, hc'⟩
  · decide

/-- Witness for `C6_schema_map_full_resolution` at the concrete collision. -/
theorem C6_schema_map_full_resolution_witness :
    (∃ cands, ("dpd_cat", cands) ∈ colCandidates
      ∧ find_column ["actual_date_of_loan", "dpd"] cands = some "dpd")
    ∧ (renameMapOf ["actual_date_of_loan", "dpd"]).lookup "dpd" = some "dpd_cat" :=
  C6_schema_map_full_resolution ["actual_date_of_loan", "dpd"] "dpd_cat" "dpd" (by decide)

/-! ## NameResolver reorder invariance (claim C8) -/

/-- When the key is absent, Python dict insertion appends at the end. -/
theorem pyDictInsert_of_not_mem (m : List (String × String)) (k v : String)
    (h : ∀ p ∈ m, p.1 ≠ k) : pyDictInsert m k v = m ++ [(k, v)] := by
  induction m with
  | nil => rfl
  | cons p t ih =>
    rw [pyDictInsert]
    rw [if_neg (h p (List.mem_cons_self p t))]
    rw [ih (fun q hq => h q (List.mem_cons_of_mem p hq))]
    rfl

/-- With pairwise-distinct normalized labels, `norm_to_col` is simply the
list of `(normalize c, c)` pairs in column order: no overwrite happens. -/
theorem buildNormMap_eq_map (cols : List String)
    (hnd : (cols.map normalize).Nodup) :
    buildNormMap cols = cols.map (fun c => (normalize c, c)) := by
  have key : ∀ (cs : List String) (acc : List (String × String)),
      (cs.map normalize).Nodup →
      (∀ c ∈ cs, ∀ p ∈ acc, p.1 ≠ normalize c) →
      cs.foldl (fun m c => pyDictInsert m (normalize c) c) acc
        = acc ++ cs.map (fun c => (normalize c, c)) := by
    intro cs
    induction cs with
    | nil => intro acc _ _; simp
    | cons a t ih =>
      intro acc hnd hacc
      rw [List.map_cons, List.nodup_cons] at hnd
      rw [List.foldl_cons]
      rw [pyDictInsert_of_not_mem acc (normalize a) a
        (fun p hp => hacc a (List.mem_cons_self a t) p hp)]
      rw [ih (acc ++ [(normalize a, a)]) hnd.2]
      · simp
      · intro c hc p hp
        rcases List.mem_append.mp hp with hp | hp
        · exact hacc c (List.mem_cons_of_mem a hc) p hp
        · rcases List.mem_singleton.mp hp with rfl
          intro hne
          apply hnd.1
          rw [show normalize a = normalize c from hne]
          exact List.mem_map_of_mem normalize hc
  exact key cols [] hnd (by intro c _ p hp; cases hp)

/-- Characterization of lookup in the (collision-free) `norm_to_col` map:
it returns `c` exactly when `c` is a column whose normal form is the key. -/
theorem lookup_map_norm (cols : List String) (k c : String)
    (hnd : (cols.map normalize).Nodup) :
    ((cols.map (fun c => (normalize c, c))).lookup k = some c)
      ↔ (c ∈ cols ∧ normalize c = k) := by
  induction cols with
  | nil => simp [List.lookup]
  | cons a t ih =>
    rw [List.map_cons, List.nodup_cons] at hnd
    rw [List.map_cons]
    rw [List.lookup_cons]
    by_cases h : normalize a = k
    · have hb : (k == normalize a) = true := beq_iff_eq.mpr h.symm
      rw [hb]
      simp only [Option.some.injEq]
      constructor
      · rintro rfl; exact ⟨List.mem_cons_self a t, h⟩
      · rintro ⟨hc, hck⟩
        rcases List.mem_cons.mp hc with rfl | hc
        · rfl
        · refine absurd ?_ hnd.1
          rw [h, ← hck]
          exact List.mem_map_of_mem normalize hc
    · have hb : (k == normalize a) = false := by
        rw [beq_eq_false_iff_ne]
        exact fun hk => h hk.symm
      rw [hb]
      show (t.map (fun c => (normalize c, c))).lookup k = some c ↔ _
      rw [ih hnd.2]
      constructor
      · rintro ⟨hc, hck⟩; exact ⟨List.mem_cons_of_mem a hc, hck⟩
      · rintro ⟨hc, hck⟩
        rcases List.mem_cons.mp hc with rfl | hc
        · exact absurd hck h
        · exact ⟨hc, hck⟩

/-- `findSome?` only depends on the values of the function on the list. -/
theorem findSome_congr {α β : Type} (f g : α → Option β) :
    ∀ l : List α, (∀ x ∈ l, f x = g x) → l.findSome? f = l.findSome? g
  | [], _ => rfl
  | a :: t, h => by
    rw [List.findSome?_cons, List.findSome?_cons, h a (List.mem_cons_self a t)]
    cases g a with
    | some b => rfl
    | none => exact findSome_congr f g t (fun x hx => h x (List.mem_cons_of_mem a hx))

/-- If some list element produces a value, `findSome?` produces a value. -/
theorem findSome_isSome {α β : Type} (f : α → Option β) :
    ∀ (l : List α) (a : α), a ∈ l → (f a).isSome → (l.findSome? f).isSome
  | [], a, ha, _ => absurd ha (List.not_mem_nil a)
  | b :: t, a, ha, hf => by
    rw [List.findSome?_cons]
    cases hfb : f b with
    | some v => rfl
    | none =>
      rcases List.mem_cons.mp ha with rfl | ha
      · rw [hfb] at hf; cases hf
      · exact findSome_isSome f t a ha hf

/-- Claim C8 (counterexample): two distinct raw labels `"Loan_Date"` and
`"loan-date"` normalize identically, the later column wins in
`norm_to_col`, and so reordering the available labels changes the raw
label that `find_column` returns for candidate list `["loan_date"]` even
though an exact match exists both times. -/
theorem C8_resolve_reorder_counterexample :
    find_column ["Loan_Date", "loan-date"] ["loan_date"] = some "loan-date"
    ∧ find_column ["loan-date", "Loan_Date"] ["loan_date"] = some "Loan_Date"
    ∧ ["Loan_Date", "loan-date"].Perm ["loan-date", "Loan_Date"]
    ∧ ("loan-date" : String) ≠ "Loan_Date" := by
  refine ⟨by decide, by decide, List.Perm.swap _ _ _, by decide⟩

/-- Claim C8 (amended): when the normalized forms of the available labels
are pairwise distinct and some candidate has an exact (normalized) match,
`find_column` returns the same winning raw label under every reordering of
the available labels (and it does return one). -/
theorem C8_resolve_reorder (cands cols cols' : List String)
    (hperm : cols.Perm cols')
    (hnd : (cols.map normalize).Nodup)
    (hex : ∃ cand ∈ cands, normalize cand ∈ cols.map normalize) :
    find_column cols cands = find_column cols' cands
    ∧ (find_column cols cands).isSome := by
  have hnd' : (cols'.map normalize).Nodup := ((hperm.map normalize).nodup_iff).mp hnd
  have hlk : ∀ k, (buildNormMap cols).lookup k = (buildNormMap cols').lookup k := by
    intro k
    rw [buildNormMap_eq_map cols hnd, buildNormMap_eq_map cols' hnd']
    cases h1 : (cols.map (fun c => (normalize c, c))).lookup k with
    | some c =>
      have := (lookup_map_norm cols k c hnd).mp h1
      exact ((lookup_map_norm cols' k c hnd').mpr ⟨hperm.mem_iff.mp this.1, this.2⟩).symm
    | none =>
      cases h2 : (cols'.map (fun c => (normalize c, c))).lookup k with
      | some c =>
        have := (lookup_map_norm cols' k c hnd').mp h2
        rw [(lookup_map_norm cols k c hnd).mpr ⟨hperm.mem_iff.mpr this.1, this.2⟩] at h1
        cases h1
      | none => rfl
  have hEq : exactPass cols cands = exactPass cols' cands :=
    findSome_congr _ _ cands (fun cand _ => hlk (normalize cand))
  have hSome : (exactPass cols cands).isSome := by
    obtain ⟨cand, hc, hm⟩ := hex
    obtain ⟨c, hcc, hcn⟩ := List.mem_map.mp hm
    refine findSome_isSome _ cands cand hc ?_
    rw [buildNormMap_eq_map cols hnd]
    rw [(lookup_map_norm cols (normalize cand) c hnd).mpr ⟨hcc, hcn⟩]
    rfl
  obtain ⟨w, hw⟩ := Option.isSome_iff_exists.mp hSome
  rw [find_column, find_column, hw, ← hEq, hw]
  exact ⟨rfl, rfl⟩

/-- Witness for `C8_resolve_reorder`: two columns with distinct normal
forms, swapped. -/
theorem C8_resolve_reorder_witness :
    find_column ["Loan_Date", "Segment"] ["loan_date"]
      = find_column ["Segment", "Loan_Date"] ["loan_date"]
    ∧ (find_column ["Loan_Date", "Segment"] ["loan_date"]).isSome :=
  C8_resolve_reorder ["loan_date"] ["Loan_Date", "Segment"] ["Segment", "Loan_Date"]
    (List.Perm.swap _ _ _) (by decide) ⟨"loan_date", by decide, by decide⟩

/-! ## Filterer: the sidebar choices and the apply-filters loop
(source lines 82-99, claims C4 and C5) -/

/-- A categorical cell as read from the spreadsheet: either text or
missing (pandas `NaN`). -/
inductive Cell where
  | null : Cell
  | str (v : String) : Cell
deriving DecidableEq

/-- A row, as a column-label → cell association list. -/
abbrev Row := List (String × Cell)

/-- Value of column `k` in row `r`. -/
def getCell (r : Row) (k : String) : Cell :=
  match r.lookup k with
  | some c => c
  | none => Cell.null

/-- `.astype(str)` on one cell: pandas renders a missing value as the
string `"nan"`. -/
def astypeStr : Cell → String
  | Cell.null => "nan"
  | Cell.str v => v

/-- The non-null payload of a cell (`dropna` keeps exactly these). -/
def cellStr : Cell → Option String
  | Cell.null => none
  | Cell.str v => some v

/-- Python `sorted` comparison: strict lexicographic order on the
character codes. -/
def codeLt : List Char → List Char → Bool
  | _, [] => false
  | [], _ :: _ => true
  | a :: as, b :: bs => if a < b then true else if b < a then false else codeLt as bs

/-- Non-strict string comparison used to model Python `sorted`. -/
def strLeB (a b : String) : Bool := !(codeLt b.data a.data)

/-- The apply-filters loop (source lines 96-99): for each
`(field, selected-values)` pair, keep the rows whose stringified cell is
in the selection — but only when the selection is non-empty; an empty
selection is skipped. -/
def applyFilters : List (String × List String) → List Row → List Row
  | [], rows => rows
  | p :: t, rows =>
    applyFilters t
      (if p.2.length > 0 then
        rows.filter (fun r => decide (astypeStr (getCell r p.1) ∈ p.2))
      else rows)

/-- The sidebar choice list for one field (source lines 82-93):
`sorted(df[k].dropna().astype(str).unique().tolist())` — the field's full
domain of non-null values. -/
def fieldDomain (rows : List Row) (k : String) : List String :=
  List.insertionSort (fun a b => strLeB a b = true)
    ((rows.filterMap (fun r => cellStr (getCell r k))).dedup)

/-- Claim C4 (counterexample): an empty include-set on a non-empty dataset
is *skipped* by the filter loop, so the whole dataset passes through —
not zero rows as the claim states. -/
theorem C4_empty_include_set_counterexample :
    applyFilters [("segment", [])] [[("segment", Cell.str "A")]]
      = [[("segment", Cell.str "A")]]
    ∧ ([[("segment", Cell.str "A")]] : List Row).length ≠ 0 := by
  exact ⟨rfl, by decide⟩

/-- Claim C4 (amended): an empty include-set imposes no restriction: a
FilterSpec all of whose include-sets are empty is a full passthrough,
exactly as if those fields were absent from the FilterSpec. -/
theorem C4_empty_include_set_passthrough (rows : List Row)
    (spec : List (String × List String)) (h : ∀ p ∈ spec, p.2 = []) :
    applyFilters spec rows = rows := by
  induction spec with
  | nil => rfl
  | cons p t ih =>
    rw [applyFilters]
    rw [h p (List.mem_cons_self p t)]
    rw [List.length_nil, if_neg (by omega)]
    exact ih (fun q hq => h q (List.mem_cons_of_mem p hq))

/-- Witness for `C4_empty_include_set_passthrough`. -/
theorem C4_empty_include_set_passthrough_witness :
    applyFilters [("segment", [])] [[("segment", Cell.str "A")]]
      = [[("segment", Cell.str "A")]] :=
  C4_empty_include_set_passthrough [[("segment", Cell.str "A")]]
    [("segment", [])] (by decide)

/-- Claim C5 (counterexample): on a dataset with one `"A"`-segment row and
one null-segment row, filtering with the include-set equal to the field's
full domain (`["A"]`, built after `dropna`) drops the null row — the
dataset is *not* returned unchanged. -/
theorem C5_full_domain_counterexample :
    fieldDomain [[("segment", Cell.str "A")], [("segment", Cell.null)]] "segment" = ["A"]
    ∧ applyFilters
        [("segment",
          fieldDomain [[("segment", Cell.str "A")], [("segment", Cell.null)]] "segment")]
        [[("segment", Cell.str "A")], [("segment", Cell.null)]]
      ≠ [[("segment", Cell.str "A")], [("segment", Cell.null)]] := by
  exact ⟨by decide, by decide⟩

/-- Claim C5 (amended): a full-domain include-set keeps exactly the rows
whose value for the field is non-null (missing values stringify to
`"nan"`, which is not among the `dropna`-built choices, so null rows are
dropped); if the domain is empty the filter is skipped entirely.  The
hypothesis rules out the literal string value `"nan"`, which would
collide with the missing-value rendering. -/
theorem C5_full_domain_filter (rows : List Row) (k : String)
    (hnan : ∀ r ∈ rows, getCell r k ≠ Cell.str "nan") :
    (fieldDomain rows k ≠ [] →
      applyFilters [(k, fieldDomain rows k)] rows
        = rows.filter (fun r => (cellStr (getCell r k)).isSome))
    ∧ (fieldDomain rows k = [] →
      applyFilters [(k, fieldDomain rows k)] rows = rows) := by
  have hmem : ∀ v, v ∈ fieldDomain rows k
      ↔ v ∈ rows.filterMap (fun r => cellStr (getCell r k)) := by
    intro v
    rw [fieldDomain]
    constructor
    · intro hv
      exact List.mem_dedup.mp ((List.perm_insertionSort _ _).mem_iff.mp hv)
    · intro hv
      exact (List.perm_insertionSort _ _).mem_iff.mpr (List.mem_dedup.mpr hv)
  constructor
  · intro hne
    rw [applyFilters, applyFilters]
    rw [if_pos (by simpa using List.length_pos.mpr hne)]
    apply List.filter_congr
    intro r hr
    cases hcell : getCell r k with
    | null =>
      have hnotin : ¬ ("nan" ∈ fieldDomain rows k) := by
        intro hm
        rw [hmem, List.mem_filterMap] at hm
        obtain ⟨r', hr', hcs⟩ := hm
        cases hc2 : getCell r' k with
        | null => rw [hc2] at hcs; cases hcs
        | str v =>
          rw [hc2] at hcs
          injection hcs with hv
          exact hnan r' hr' (by rw [hc2, hv])
      simp [astypeStr, cellStr, hnotin]
    | str v =>
      have hv : v ∈ fieldDomain rows k := by
        rw [hmem, List.mem_filterMap]
        exact ⟨r, hr, by rw [hcell]; rfl⟩
      simp [astypeStr, cellStr, hv]
  · intro hd
    rw [applyFilters, applyFilters, hd]
    rw [List.length_nil, if_neg (by omega)]

/-- Witness for `C5_full_domain_filter` on the two-row dataset. -/
theorem C5_full_domain_filter_witness :
    applyFilters
        [("segment",
          fieldDomain [[("segment", Cell.str "A")], [("segment", Cell.null)]] "segment")]
        [[("segment", Cell.str "A")], [("segment", Cell.null)]]
      = ([[("segment", Cell.str "A")], [("segment", Cell.null)]] : List Row).filter
          (fun r => (cellStr (getCell r "segment")).isSome) :=
  (C5_full_domain_filter [[("segment", Cell.str "A")], [("segment", Cell.null)]]
    "segment" (by decide)).1 (by decide)

/-! ## DerivedMetrics: recovery rate and MoM percent change
(source lines 119-122, 186-188, 260-262; claims C1 and C3) -/

/-- A pandas float cell: NaN, a signed infinity, or a finite value
(modelled as an exact rational). -/
inductive PF where
  | nan : PF
  | inf : PF
  | neginf : PF
  | val (q : ℚ) : PF
deriving DecidableEq

/-- IEEE division of finite floats, as numpy/pandas produce it: a zero
divisor gives a signed infinity, or NaN for `0/0`. -/
def ieeeDiv (a b : ℚ) : PF :=
  if b = 0 then (if 0 < a then PF.inf else if a < 0 then PF.neginf else PF.nan)
  else PF.val (a / b)

/-- Multiplication of a float cell by the positive constant 100. -/
def pfMul100 : PF → PF
  | PF.nan => PF.nan
  | PF.inf => PF.inf
  | PF.neginf => PF.neginf
  | PF.val q => PF.val (q * 100)

/-- One element of `pct_change() * 100`: the change from `prev` to `v` as
a percentage, `(v - prev) / prev * 100` with IEEE semantics when
`prev = 0` (numpy computes `v/prev - 1`; over exact rationals, and on the
zero-divisor special cases, the two forms agree). -/
def momCell (prev v : ℚ) : PF := pfMul100 (ieeeDiv (v - prev) prev)

/-- Tail of the percent-change series: one `momCell` per adjacent pair. -/
def pctChangeGo : ℚ → List ℚ → List PF
  | _, [] => []
  | prev, v :: vs => momCell prev v :: pctChangeGo v vs

/-- `mom[metric].pct_change() * 100` (source line 262) on the
chronologically ordered period sums: the first element is NaN (no prior
period), element `i+1` compares `v_{i+1}` with `v_i`. -/
def pctChangeSeries : List ℚ → List PF
  | [] => []
  | v :: vs => PF.nan :: pctChangeGo v vs

/-- `replace([inf, -inf], 0)` on one cell: infinities become 0, NaN and
finite values are untouched. -/
def replaceInfWithZero : PF → PF
  | PF.inf => PF.val 0
  | PF.neginf => PF.val 0
  | x => x

/-- One entry of the per-month recovery-rate series (source line 188):
`(sum_recovered / sum_disbursed * 100).replace([inf, -inf], 0)`. -/
def monthlyRecoveryPct (rec dis : ℚ) : PF :=
  replaceInfWithZero (pfMul100 (ieeeDiv rec dis))

/-- The overall portfolio recovery rate (source line 122):
`(total_recovered / total_disbursed * 100) if total_disbursed else 0`. -/
def overallRecoveryPct (rec dis : ℚ) : ℚ :=
  if dis = 0 then 0 else rec / dis * 100

/-- Evaluation of the percent-change series on the spec's example input. -/
theorem pctChange_example_eval :
    pctChangeSeries [100, 150, 150, 0, 10]
      = [PF.nan, PF.val 50, PF.val 0, PF.val (-100), PF.inf] := by
  norm_num [pctChangeSeries, pctChangeGo, momCell, ieeeDiv, pfMul100]

/-- Claim C1 (counterexample): on the spec's own example series the last
element — whose prior period sum is 0 — is `+inf`, not the "undefined"
(NaN) marker that the first element carries. -/
theorem C1_pct_change_counterexample :
    (pctChangeSeries [100, 150, 150, 0, 10])[4]? = some PF.inf
    ∧ PF.inf ≠ PF.nan
    ∧ (pctChangeSeries [100, 150, 150, 0, 10])[0]? = some PF.nan := by
  rw [pctChange_example_eval]
  refine ⟨rfl, by decide, rfl⟩

/-- Element `i` of the percent-change tail, for adjacent input values. -/
theorem pctChangeGo_get :
    ∀ (t : List ℚ) (prev : ℚ) (i : ℕ) (p v : ℚ),
      (prev :: t)[i]? = some p → t[i]? = some v →
      (pctChangeGo prev t)[i]? = some (momCell p v)
  | [], _, i, _, _, _, hv => by simp at hv
  | b :: t', prev, 0, p, v, hp, hv => by
    rw [List.getElem?_cons_zero] at hp hv
    injection hp with hp
    injection hv with hv
    rw [pctChangeGo, List.getElem?_cons_zero, hp, hv]
  | b :: t', prev, i + 1, p, v, hp, hv => by
    rw [List.getElem?_cons_succ] at hp hv
    rw [pctChangeGo, List.getElem?_cons_succ]
    exact pctChangeGo_get t' b i p v hp hv

/-- The percent-change tail has one element per input element. -/
theorem pctChangeGo_length : ∀ (t : List ℚ) (prev : ℚ),
    (pctChangeGo prev t).length = t.length
  | [], _ => rfl
  | _ :: t', _ => by rw [pctChangeGo, List.length_cons, List.length_cons,
      pctChangeGo_length t']

/-- Claim C1 (amended): the series has the input's length, its first
element is the NaN "no prior period" marker, and element `i+1` is
`(v_{i+1} - v_i) / v_i * 100` — where a zero prior period yields `+inf`
(positive numerator), `-inf` (negative), or NaN (`0/0`), never the gap
marker of the first position; on the spec's example the result is
`[NaN, 50, 0, -100, +inf]`. -/
theorem C1_pct_change_series (vs : List ℚ) (i : ℕ) (p v : ℚ)
    (hp : vs[i]? = some p) (hv : vs[i + 1]? = some v) :
    (pctChangeSeries vs).length = vs.length
    ∧ (pctChangeSeries vs)[0]? = some PF.nan
    ∧ (pctChangeSeries vs)[i + 1]? = some (momCell p v)
    ∧ pctChangeSeries [100, 150, 150, 0, 10]
        = [PF.nan, PF.val 50, PF.val 0, PF.val (-100), PF.inf] := by
  cases vs with
  | nil => simp at hp
  | cons a t =>
    refine ⟨?_, ?_, ?_, pctChange_example_eval⟩
    · rw [pctChangeSeries, List.length_cons, List.length_cons, pctChangeGo_length]
    · rw [pctChangeSeries, List.getElem?_cons_zero]
    · rw [pctChangeSeries, List.getElem?_cons_succ]
      rw [List.getElem?_cons_succ] at hv
      exact pctChangeGo_get t a i p v hp hv

/-- Witness for `C1_pct_change_series`: a zero prior period inside a
concrete series. -/
theorem C1_pct_change_series_witness :
    (pctChangeSeries [100, 0, 10])[0]? = some PF.nan
    ∧ (pctChangeSeries [100, 0, 10])[2]? = some (momCell 0 10) :=
  ⟨(C1_pct_change_series [100, 0, 10] 1 0 10 (by decide) (by decide)).2.1,
   (C1_pct_change_series [100, 0, 10] 1 0 10 (by decide) (by decide)).2.2.1⟩

/-- Claim C3: the overall figure follows the `disbursed = 0 → 0`
convention (line 122), and the monthly series replaces the infinities —
but a month whose recovered and disbursed sums are both 0 produces
`0/0 = NaN`, which `replace([inf, -inf], 0)` does not touch: the
per-month entry is NaN, not 0, contradicting the stated convention. -/
theorem C3_recovery_rate_zero_zero :
    monthlyRecoveryPct 0 0 = PF.nan
    ∧ PF.nan ≠ PF.val 0
    ∧ overallRecoveryPct 0 0 = 0
    ∧ overallRecoveryPct 50 100 = 50
    ∧ monthlyRecoveryPct 50 0 = PF.val 0 := by
  refine ⟨by decide, by decide, by decide,
    by norm_num [overallRecoveryPct], by decide⟩

/-! ## Bucketizer: `dpd_bucket` (source lines 201-214, claim C9) -/

/-- An input to `dpd_bucket`: `null` is Python `None` (`float(None)`
raises `TypeError`), `nonNumeric` is any value `float()` rejects with
`ValueError`, `nan` is a float NaN — which is what a missing
`days_past_due` becomes after the `pd.to_numeric(..., errors='coerce')`
at the call site — and `num q` a finite float. -/
inductive DpdVal where
  | null : DpdVal
  | nonNumeric : DpdVal
  | nan : DpdVal
  | num (q : ℚ) : DpdVal
deriving DecidableEq

/-- `x <= b` on the result of `float(x)`: every comparison with NaN is
False in IEEE arithmetic. -/
def dpdLe : DpdVal → ℚ → Bool
  | DpdVal.nan, _ => false
  | DpdVal.num q, b => decide (q ≤ b)
  | _, _ => false

/-- `dpd_bucket` (source lines 201-214): `float(x)` under `try/except`
(raising inputs give `Unknown`), then chained `<=` threshold tests. -/
def dpd_bucket (x : DpdVal) : String :=
  match x with
  | DpdVal.null => "Unknown"
  | DpdVal.nonNumeric => "Unknown"
  | _ =>
    if dpdLe x 0 then "Current/Not due"
    else if dpdLe x 30 then "1-30"
    else if dpdLe x 60 then "31-60"
    else if dpdLe x 90 then "61-90"
    else "90+"

/-- Claim C9: `dpd_bucket` is total and maps the finite bands as claimed —
but a float NaN (the missing-value representation actually flowing into
it after the `to_numeric` coercion) is caught by no band: `float(nan)`
does not raise and every `<=` test is False, so NaN falls through to
`"90+"` instead of `"Unknown"`. -/
theorem C9_dpd_bucket_nan_falls_through :
    dpd_bucket DpdVal.nan = "90+"
    ∧ dpd_bucket DpdVal.nan ≠ "Unknown"
    ∧ dpd_bucket DpdVal.null = "Unknown"
    ∧ dpd_bucket DpdVal.nonNumeric = "Unknown"
    ∧ dpd_bucket (DpdVal.num 0) = "Current/Not due"
    ∧ dpd_bucket (DpdVal.num (-5)) = "Current/Not due"
    ∧ dpd_bucket (DpdVal.num 30) = "1-30"
    ∧ dpd_bucket (DpdVal.num (300001 / 10000)) = "31-60"
    ∧ dpd_bucket (DpdVal.num 60) = "31-60"
    ∧ dpd_bucket (DpdVal.num 90) = "61-90"
    ∧ dpd_bucket (DpdVal.num 91) = "90+" := by
  refine ⟨by decide, by decide, by decide, by decide, by decide, by decide,
    by decide, by norm_num [dpd_bucket, dpdLe], by decide, by decide, by decide⟩

/-! ## Per-segment overdue percentage (source lines 237-239, claim C10) -/

/-- Count of overdue rows in one segment group:
`(x['days_past_due'] > 0).sum()` — a NaN DPD compares False. -/
def overdueCount (g : List (Option ℚ)) : ℕ :=
  g.countP (fun x => match x with
    | some v => decide (0 < v)
    | none => false)

/-- `Pct_Overdue` for one segment group (source line 237):
`(x['days_past_due'] > 0).sum() / max(1, len(x)) * 100`. -/
def pct_overdue (g : List (Option ℚ)) : ℚ :=
  (overdueCount g : ℚ) / ((max 1 g.length : ℕ) : ℚ) * 100

/-- Claim C10: the `max(1, len(x))` divisor is never zero, so
`Pct_Overdue` is always defined, and it lies in `[0, 100]`. -/
theorem C10_pct_overdue_bounds (g : List (Option ℚ)) :
    0 ≤ pct_overdue g ∧ pct_overdue g ≤ 100 := by
  have hc : overdueCount g ≤ g.length := List.countP_le_length _
  have hm : g.length ≤ max 1 g.length := le_max_right _ _
  have hpos : (0 : ℚ) < ((max 1 g.length : ℕ) : ℚ) := by
    have h1 : (1 : ℕ) ≤ max 1 g.length := le_max_left _ _
    exact_mod_cast Nat.lt_of_lt_of_le Nat.zero_lt_one h1
  constructor
  · exact mul_nonneg (div_nonneg (Nat.cast_nonneg _) hpos.le) (by norm_num)
  · have hdiv : (overdueCount g : ℚ) / ((max 1 g.length : ℕ) : ℚ) ≤ 1 := by
      rw [div_le_one hpos]
      exact_mod_cast le_trans hc hm
    calc (overdueCount g : ℚ) / ((max 1 g.length : ℕ) : ℚ) * 100
        ≤ 1 * 100 := mul_le_mul_of_nonneg_right hdiv (by norm_num)
      _ = 100 := by norm_num

/-! ## PeriodDeriver: the `Loan_Month_Year` column (source lines 76-77,
claim C2) -/

/-- Zero-padded two-digit month, as in `str(pd.Period(...))`. -/
def pad2Str (n : ℕ) : String := if n < 10 then "0" ++ toString n else toString n

/-- Zero-padded four-digit year, as in `str(pd.Period(...))`. -/
def pad4Str (n : ℕ) : String :=
  if n < 10 then "000" ++ toString n
  else if n < 100 then "00" ++ toString n
  else if n < 1000 then "0" ++ toString n
  else toString n

/-- `.dt.to_period('M').astype(str)` on one cell.  The loan date after
`pd.to_datetime(..., errors='coerce')` is either a real date (year and
month retained here) or `NaT`; `str(Period('YYYY-MM'))` is `"YYYY-MM"`,
and — crucially — `str(NaT)` is the literal string `"NaT"`, not a
missing value. -/
def toPeriodStr : Option (ℕ × ℕ) → String
  | none => "NaT"
  | some (y, m) => pad4Str y ++ "-" ++ pad2Str m

/-- A dataset row for the period pipeline: the coerced loan date
(`none` = `NaT`, unparseable or empty) and a numeric column. -/
structure LRow where
  loan_date : Option (ℕ × ℕ)
  amount : ℚ
deriving DecidableEq

/-- The derived `Loan_Month_Year` cell of a row (source line 77). -/
def periodKey (r : LRow) : String := toPeriodStr r.loan_date

/-- The group keys of `groupby('Loan_Month_Year')` (source lines 137,
186, 260): the distinct values of the period column, sorted (pandas
groupby sorts keys by default).  Because `astype(str)` made every cell a
string, no key is null and none is dropped. -/
def groupKeys (rows : List LRow) : List String :=
  List.insertionSort (fun a b => strLeB a b = true) ((rows.map periodKey).dedup)

/-- The rows contributing to one period group. -/
def groupRows (rows : List LRow) (k : String) : List LRow :=
  rows.filter (fun r => periodKey r == k)

/-- A non-period aggregate: the sum of a numeric column over all rows
(source lines 119-121). -/
def sumAmounts (rows : List LRow) : ℚ := (rows.map LRow.amount).sum

/-- Claim C2 (counterexample): a row whose date failed to parse gets the
non-null period key `"NaT"`, and the period-grouped table *does* contain
a group contributed by that row — the `"NaT"` group. -/
theorem C2_nat_period_key_counterexample :
    periodKey ⟨none, 5⟩ = "NaT"
    ∧ groupKeys [⟨none, 5⟩] = ["NaT"]
    ∧ groupRows [⟨none, 5⟩] "NaT" = [⟨none, 5⟩] := by
  refine ⟨rfl, by decide, by decide⟩

/-- Claim C2 (amended): a row with an unparseable or empty date gets the
literal string `"NaT"` as its period key (not null), it contributes a
`"NaT"` group to every period-grouped aggregate, and it is retained for
non-period aggregates (its amount participates in the overall sum, which
splits into the parsed-date and `NaT` parts). -/
theorem C2_nat_rows_form_group (rows : List LRow) (r : LRow)
    (hr : r ∈ rows) (hd : r.loan_date = none) :
    periodKey r = "NaT"
    ∧ "NaT" ∈ groupKeys rows
    ∧ r ∈ groupRows rows "NaT"
    ∧ sumAmounts rows
        = sumAmounts (rows.filter (fun x => x.loan_date.isSome))
          + sumAmounts (rows.filter (fun x => x.loan_date.isNone)) := by
  have hkey : periodKey r = "NaT" := by rw [periodKey, hd]; rfl
  refine ⟨hkey, ?_, ?_, ?_⟩
  · rw [groupKeys]
    refine (List.perm_insertionSort _ _).mem_iff.mpr (List.mem_dedup.mpr ?_)
    exact hkey ▸ List.mem_map_of_mem periodKey hr
  · rw [groupRows, List.mem_filter]
    exact ⟨hr, by simp [hkey]⟩
  · have hfun : (fun x : LRow => x.loan_date.isNone)
        = (fun x : LRow => !x.loan_date.isSome) := by
      funext x
      cases x.loan_date <;> rfl
    rw [hfun]
    have hperm : List.Perm
        (rows.filter (fun x => x.loan_date.isSome)
          ++ rows.filter (fun x => !x.loan_date.isSome)) rows :=
      List.filter_append_perm _ rows
    rw [sumAmounts, sumAmounts, sumAmounts, ← List.sum_append, ← List.map_append]
    exact ((hperm.map LRow.amount).sum_eq).symm

/-- Witness for `C2_nat_rows_form_group`: one good row and one bad row. -/
theorem C2_nat_rows_form_group_witness :
    periodKey ⟨none, 7⟩ = "NaT"
    ∧ "NaT" ∈ groupKeys [⟨some (2024, 1), 3⟩, ⟨none, 7⟩]
    ∧ (⟨none, 7⟩ : LRow) ∈ groupRows [⟨some (2024, 1), 3⟩, ⟨none, 7⟩] "NaT"
    ∧ sumAmounts [⟨some (2024, 1), 3⟩, ⟨none, 7⟩]
        = sumAmounts ([⟨some (2024, 1), 3⟩, ⟨none, 7⟩].filter
            (fun x => x.loan_date.isSome))
          + sumAmounts ([⟨some (2024, 1), 3⟩, ⟨none, 7⟩].filter
            (fun x => x.loan_date.isNone)) :=
  C2_nat_rows_form_group [⟨some (2024, 1), 3⟩, ⟨none, 7⟩] ⟨none, 7⟩
    (by decide) rfl

/-! ## PeriodDeriver: `sort_month_df` (source lines 104-108, claim C7) -/

/-- Numeric value of a decimal digit character. -/
def digitVal (c : Char) : ℕ := c.toNat - 48

/-- `pd.to_datetime(key + '-01', errors='coerce')` for period keys: a key
in the `YYYY-MM` shape (the shape `to_period('M').astype(str)` emits for
real dates) reconstructs the first-of-month date, of which the year and
month are kept here; any other key — including the `"NaT"` string — fails
to re-parse and coerces to NaT (`none`). -/
def parseYM (s : String) : Option (ℕ × ℕ) :=
  match s.data with
  | [a, b, c, d, e, f, g] =>
    if e = '-' ∧ a.isDigit ∧ b.isDigit ∧ c.isDigit ∧ d.isDigit ∧ f.isDigit ∧ g.isDigit
    then
      if 1 ≤ 10 * digitVal f + digitVal g ∧ 10 * digitVal f + digitVal g ≤ 12 then
        some (1000 * digitVal a + 100 * digitVal b + 10 * digitVal c + digitVal d,
          10 * digitVal f + digitVal g)
      else none
    else none
  | _ => none

/-- Ascending order on reconstructed dates with NaT greatest, matching
`sort_values('_dt')` with its default `na_position='last'`. -/
def kle : Option (ℕ × ℕ) → Option (ℕ × ℕ) → Bool
  | _, none => true
  | none, some _ => false
  | some p, some q => decide (p.1 < q.1 ∨ (p.1 = q.1 ∧ p.2 ≤ q.2))

/-- `kle` is total. -/
theorem kle_total : ∀ a b : Option (ℕ × ℕ), kle a b = true ∨ kle b a = true
  | none, none => Or.inl rfl
  | none, some _ => Or.inr rfl
  | some _, none => Or.inl rfl
  | some p, some q => by
    simp only [kle, decide_eq_true_eq]
    omega

/-- `kle` is transitive. -/
theorem kle_trans : ∀ a b c : Option (ℕ × ℕ),
    kle a b = true → kle b c = true → kle a c = true
  | a, _, none, _, _ => by cases a <;> rfl
  | _, none, some _, _, h2 => absurd h2 (by simp [kle])
  | none, some _, some _, h1, _ => absurd h1 (by simp [kle])
  | some _, some _, some _, h1, h2 => by
    simp only [kle, decide_eq_true_eq] at h1 h2 ⊢
    omega

/-- `sort_month_df` (source lines 104-108): rebuild a date from
`key + "-01"` with `errors='coerce'` and sort ascending on it.  pandas
`sort_values` orders the rows with a valid reconstructed date ascending
and appends the NaT rows at the end in their original order (that is how
`nargsort` realizes the default `na_position='last'`). -/
def sortMonthDf {α : Type} (key : α → String) (rows : List α) : List α :=
  List.insertionSort (fun x y => kle (parseYM (key x)) (parseYM (key y)) = true)
    (rows.filter (fun x => (parseYM (key x)).isSome))
  ++ rows.filter (fun x => !(parseYM (key x)).isSome)

/-- Rows kept by the bad-key filter have unparseable keys. -/
theorem parse_none_of_mem_bad {α : Type} (key : α → String) (rows : List α) :
    ∀ x ∈ rows.filter (fun x => !(parseYM (key x)).isSome),
      parseYM (key x) = none := by
  intro x hx
  have hx2 := (List.mem_filter.mp hx).2
  cases h : parseYM (key x) with
  | none => rfl
  | some v => simp [h] at hx2

/-- A list of rows with unparseable keys is pairwise `kle`-ordered. -/
theorem pairwise_of_none {α : Type} (key : α → String) :
    ∀ l : List α, (∀ x ∈ l, parseYM (key x) = none) →
      List.Pairwise
        (fun x y => kle (parseYM (key x)) (parseYM (key y)) = true) l
  | [], _ => List.Pairwise.nil
  | a :: t, h => by
    constructor
    · intro b hb
      rw [h b (List.mem_cons_of_mem a hb)]
      cases parseYM (key a) <;> rfl
    · exact pairwise_of_none key t (fun x hx => h x (List.mem_cons_of_mem a hx))

/-- Claim C7: `sort_month_df` returns a permutation of its input that is
ascending on the reconstructed `key + "-01"` dates (NaT greatest, hence
unparseable-key rows all at the end), keeps the unparseable-key rows in
their original relative order, and on the spec's example keys produces
`["2023-11", "2024-01", "2024-02"]` from every input permutation. -/
theorem C7_chronological_sort :
    (∀ (α : Type) (key : α → String) (rows : List α),
      List.Perm (sortMonthDf key rows) rows
      ∧ List.Pairwise
          (fun x y => kle (parseYM (key x)) (parseYM (key y)) = true)
          (sortMonthDf key rows)
      ∧ (sortMonthDf key rows).filter (fun x => (parseYM (key x)).isNone)
          = rows.filter (fun x => (parseYM (key x)).isNone))
    ∧ sortMonthDf id ["2024-02", "2023-11", "2024-01"] = ["2023-11", "2024-01", "2024-02"]
    ∧ sortMonthDf id ["2024-02", "2024-01", "2023-11"] = ["2023-11", "2024-01", "2024-02"]
    ∧ sortMonthDf id ["2023-11", "2024-02", "2024-01"] = ["2023-11", "2024-01", "2024-02"]
    ∧ sortMonthDf id ["2023-11", "2024-01", "2024-02"] = ["2023-11", "2024-01", "2024-02"]
    ∧ sortMonthDf id ["2024-01", "2024-02", "2023-11"] = ["2023-11", "2024-01", "2024-02"]
    ∧ sortMonthDf id ["2024-01", "2023-11", "2024-02"] = ["2023-11", "2024-01", "2024-02"] := by
  refine ⟨?_, by decide, by decide, by decide, by decide, by decide, by decide⟩
  intro α key rows
  have hbadnone := parse_none_of_mem_bad key rows
  refine ⟨?_, ?_, ?_⟩
  · refine List.Perm.trans
      (List.Perm.append (List.perm_insertionSort _ _) (List.Perm.refl _))
      (List.filter_append_perm _ rows)
  · rw [sortMonthDf, List.pairwise_append]
    refine ⟨?_, ?_, ?_⟩
    · haveI : IsTotal α
          (fun x y => kle (parseYM (key x)) (parseYM (key y)) = true) :=
        ⟨fun _ _ => kle_total _ _⟩
      haveI : IsTrans α
          (fun x y => kle (parseYM (key x)) (parseYM (key y)) = true) :=
        ⟨fun _ _ _ => kle_trans _ _ _⟩
      exact List.sorted_insertionSort _ _
    · exact pairwise_of_none key _ hbadnone
    · intro a _ b hb
      rw [hbadnone b hb]
      cases parseYM (key a) <;> rfl
  · rw [sortMonthDf, List.filter_append]
    have h1 : (List.insertionSort
        (fun x y => kle (parseYM (key x)) (parseYM (key y)) = true)
        (rows.filter (fun x => (parseYM (key x)).isSome))).filter
          (fun x => (parseYM (key x)).isNone) = [] := by
      rw [List.filter_eq_nil_iff]
      intro x hx
      have hmem := (List.perm_insertionSort
        (fun x y => kle (parseYM (key x)) (parseYM (key y)) = true)
        (rows.filter (fun x => (parseYM (key x)).isSome))).mem_iff.mp hx
      have hs := (List.mem_filter.mp hmem).2
      cases h : parseYM (key x) with
      | none => rw [h] at hs; cases hs
      | some v => simp [h]
    have h2 : (rows.filter (fun x => !(parseYM (key x)).isSome)).filter
        (fun x => (parseYM (key x)).isNone)
        = rows.filter (fun x => (parseYM (key x)).isNone) := by
      have hfun : (fun x : α => (parseYM (key x)).isNone)
          = (fun x : α => !(parseYM (key x)).isSome) := by
        funext x
        cases parseYM (key x) <;> rfl
      rw [hfun, List.filter_filter]
      apply List.filter_congr
      intro x _
      cases parseYM (key x) <;> rfl
    rw [h1, h2, List.nil_append]

end LoanDashboard
